import Mathlib

/-!
# Verification of the slabby knowledge-base adapter

Shallow embedding, in Lean 4, of the content transform, post transform,
query-result classification and client orchestration of the slabby
repository (`src/client.ts`, `src/config.ts`, `src/utils.ts`), together
with theorems settling the specification's claims about them.

JavaScript strings are modelled as Lean `String`; the few JavaScript
string primitives the code uses (`endsWith`, `startsWith`, `split`) are
given explicit executable models over the character list.
-/

namespace Slabby

/-! ## JavaScript string primitives -/

/-- Boolean test that the first character list is a leading segment of the
second.  Used to model the JavaScript string predicates below. -/
def isPrefixChars : List Char → List Char → Bool
  | [], _ => true
  | _ :: _, [] => false
  | a :: as, b :: bs => a == b && isPrefixChars as bs

/-- Model of JavaScript `s.endsWith(t)`: `t` is a suffix of `s`. -/
def jsEndsWith (s t : String) : Bool :=
  isPrefixChars t.data.reverse s.data.reverse

/-- Model of JavaScript `s.startsWith(t)`: `t` is a leading segment of `s`. -/
def jsStartsWith (s t : String) : Bool :=
  isPrefixChars t.data s.data

/-- Number of `'\n'` characters at the very end of a string.  This is a
specification-side measure used to state claims about trailing newlines;
the source code never computes it. -/
def trailingNewlines (s : String) : Nat :=
  (s.data.reverse.takeWhile (fun c => c == '\n')).length

/-! ## The delta data model (`src/client.ts`)

`client.ts` receives post content as untyped JSON (`any`).  The code
distinguishes exactly these shapes: a value that is not an array (further
split into absent/falsy, a string, or some other truthy non-array value),
or an array whose elements are operation objects.  Of an operation object
the code only ever asks whether its `insert` field is a string; we keep a
`delete` constructor as well because the replacement delta built by the
client emits `{delete: n}` operations.  `null` array elements, on which the
JavaScript field access itself would throw, are outside the model: an
operation sequence consists of operation objects. -/

/-- One element of a Quill delta operation array, at the granularity
`client.ts` inspects it: an `insert` whose payload is a string, a
`{delete: n}` operation, or any other operation (an embed insert, an
object without a string `insert`, ...). -/
inductive QuillOp where
  | insert (s : String)
  | delete (n : Nat)
  | embed
deriving DecidableEq, Repr

/-- A JSON value in a post-content position: absent (`null`/`undefined`),
a string, some other truthy non-array value (e.g. an object), or an array
of operations. -/
inductive DeltaJson where
  | absent
  | str (s : String)
  | nonArray
  | arr (ops : List QuillOp)
deriving DecidableEq, Repr

/-- The string payload an operation contributes during flattening:
`typeof op.insert === "string" ? op.insert : ""`. -/
def opText : QuillOp → String
  | .insert s => s
  | _ => ""

/-- `deltaToPlainText` (`src/client.ts:151-161`): empty string unless the
input is an array; otherwise map each operation to its string payload
(non-text operations to `""`) and join. -/
def deltaToPlainText : DeltaJson → String
  | .arr ops => String.join (ops.map opText)
  | _ => ""

/-- The length contribution of one operation in `createReplacementDelta`'s
reduction: the character length of a textual insert, `1` for anything
else ("embeds count as 1 character").  Specification-side restatement of
the reduce body. -/
def opLength : QuillOp → Nat
  | .insert s => s.length
  | _ => 1

/-- The current-content length computed by `createReplacementDelta`
(`src/client.ts:169-174`): a reduce over the operations when the content is
an array, `0` otherwise. -/
def currentLengthOf : DeltaJson → Nat
  | .arr ops =>
    ops.foldl (fun sum op =>
      match op with
      | .insert s => sum + s.length
      | _ => sum + 1) 0
  | _ => 0

/-- The normalisation applied to the new text (`src/client.ts:177`):
`newText.endsWith("\n\n") ? newText : newText + "\n\n"`. -/
def normalizeText (newText : String) : String :=
  if jsEndsWith newText "\n\n" then newText else newText ++ "\n\n"

/-- The edit delta sent to `updatePostContent`: a bare record with an
`ops` array. -/
structure ReplacementDelta where
  ops : List QuillOp
deriving DecidableEq, Repr

/-- `createReplacementDelta` (`src/client.ts:167-185`): an optional
deletion of the whole current length followed by a single insertion of the
normalised new text. -/
def createReplacementDelta (currentContent : DeltaJson) (newText : String) :
    ReplacementDelta :=
  let currentLength := currentLengthOf currentContent
  let normalizedText := normalizeText newText
  { ops := (if currentLength > 0 then [QuillOp.delete currentLength] else []) ++
      [QuillOp.insert normalizedText] }

/-! ## Helper lemmas on the string primitives -/

theorem isPrefixChars_self_append (l r : List Char) :
    isPrefixChars l (l ++ r) = true := by
  induction l with
  | nil => rfl
  | cons a as ih => simp [isPrefixChars, ih]

theorem jsEndsWith_append (s t : String) : jsEndsWith (s ++ t) t = true := by
  have h : (s ++ t).data.reverse = t.data.reverse ++ s.data.reverse := by
    simp
  rw [jsEndsWith, h]
  exact isPrefixChars_self_append _ _

theorem trailingNewlines_append_pair (s : String) :
    trailingNewlines (s ++ "\n\n") = trailingNewlines s + 2 := by
  have hd : ("\n\n" : String).data = ['\n', '\n'] := rfl
  have h : (s ++ "\n\n").data.reverse = '\n' :: '\n' :: s.data.reverse := by
    simp [hd]
  rw [trailingNewlines, h]
  simp [trailingNewlines, List.takeWhile_cons]

theorem isPrefixChars_pair_newline_iff (m : List Char) :
    isPrefixChars ['\n', '\n'] m = true ↔
      2 ≤ (m.takeWhile (fun c => c == '\n')).length := by
  match m with
  | [] => simp [isPrefixChars]
  | [a] =>
    by_cases h : a = '\n' <;>
      simp [isPrefixChars, List.takeWhile_cons, h]
  | a :: b :: rest =>
    by_cases ha : a = '\n'
    · subst ha
      by_cases hb : b = '\n'
      · subst hb
        simp [isPrefixChars, List.takeWhile_cons, Nat.le_add_left]
      · simp [isPrefixChars, List.takeWhile_cons, hb, Ne.symm hb]
    · simp [isPrefixChars, List.takeWhile_cons, ha, Ne.symm ha]

theorem jsEndsWith_pair_iff (s : String) :
    jsEndsWith s "\n\n" = true ↔ 2 ≤ trailingNewlines s := by
  have hd : ("\n\n" : String).data.reverse = ['\n', '\n'] := rfl
  rw [jsEndsWith, hd, trailingNewlines]
  exact isPrefixChars_pair_newline_iff s.data.reverse

theorem normalizeText_endsWith_pair (t : String) :
    jsEndsWith (normalizeText t) "\n\n" = true := by
  rw [normalizeText]
  by_cases h : jsEndsWith t "\n\n" = true
  · simp [h]
  · simp only [Bool.not_eq_true] at h
    simp only [h, Bool.false_eq_true, if_false]
    exact jsEndsWith_append t "\n\n"

theorem trailingNewlines_normalizeText (t : String) :
    trailingNewlines (normalizeText t) =
      if 2 ≤ trailingNewlines t then trailingNewlines t
      else trailingNewlines t + 2 := by
  rw [normalizeText]
  by_cases h : jsEndsWith t "\n\n" = true
  · have h2 := (jsEndsWith_pair_iff t).mp h
    simp [h, h2]
  · simp only [Bool.not_eq_true] at h
    have h2 : ¬ 2 ≤ trailingNewlines t := by
      intro hc
      rw [(jsEndsWith_pair_iff t).mpr hc] at h
      exact Bool.true_eq_false.mp h
    simp [h, h2, trailingNewlines_append_pair]

theorem currentLengthOf_arr (ops : List QuillOp) :
    currentLengthOf (.arr ops) = (ops.map opLength).sum := by
  rw [currentLengthOf]
  suffices h : ∀ (l : List QuillOp) (a : Nat),
      (l.foldl (fun sum op =>
        match op with
        | .insert s => sum + s.length
        | _ => sum + 1) a) = a + (l.map opLength).sum by
    simpa using h ops 0
  intro l
  induction l with
  | nil => simp
  | cons op rest ih =>
    intro a
    cases op <;> simp [List.foldl_cons, ih, opLength] <;> omega

/-! ## Claim C1 -/

/-- **C1, counterexample.**  The claim states that the insertion produced
by `createReplacementDelta` ends with *exactly two* trailing newline
characters whenever the new text ends with zero, one, or two trailing
newlines.  For a new text ending with exactly one newline this fails: the
`endsWith("\n\n")` test is false, a full `"\n\n"` pair is appended, and the
insertion ends with three trailing newlines. -/
theorem createReplacementDelta_exactly_two_counterexample :
    trailingNewlines "a\n" = 1 ∧
    createReplacementDelta DeltaJson.absent "a\n" =
      { ops := [QuillOp.insert "a\n\n\n"] } ∧
    trailingNewlines "a\n\n\n" = 3 := by
  refine ⟨by decide, ?_, by decide⟩
  decide

/-- **C1 (amended).**  The edit produced by `createReplacementDelta`
contains exactly one insertion, whose text always ends with the
two-character suffix `"\n\n"` (a pair is appended when not already
present and not doubled up when present); the insertion ends with exactly
two trailing newlines when the new text ends with zero or with two
trailing newlines, but with three when the new text ends with exactly one
trailing newline. -/
theorem createReplacementDelta_insert_normalized
    (delta : DeltaJson) (text : String) :
    (createReplacementDelta delta text).ops.filterMap
        (fun op => match op with | QuillOp.insert s => some s | _ => none) =
      [normalizeText text] ∧
    jsEndsWith (normalizeText text) "\n\n" = true ∧
    (trailingNewlines text = 0 → trailingNewlines (normalizeText text) = 2) ∧
    (trailingNewlines text = 1 → trailingNewlines (normalizeText text) = 3) ∧
    (trailingNewlines text = 2 → trailingNewlines (normalizeText text) = 2) := by
  refine ⟨?_, normalizeText_endsWith_pair text, ?_, ?_, ?_⟩
  · rw [createReplacementDelta]
    by_cases h : currentLengthOf delta > 0 <;> simp [h]
  all_goals
    intro h
    rw [trailingNewlines_normalizeText, h]
    simp

/-- Witness for the amended C1 at the concrete text `"x"` (zero trailing
newlines). -/
theorem createReplacementDelta_insert_normalized_witness :
    jsEndsWith (normalizeText "x") "\n\n" = true ∧
    trailingNewlines (normalizeText "x") = 2 :=
  ⟨(createReplacementDelta_insert_normalized DeltaJson.absent "x").2.1,
   (createReplacementDelta_insert_normalized DeltaJson.absent "x").2.2.1
     (by decide)⟩

/-! ## Claim C2 -/

/-- **C2.**  `createReplacementDelta` computes the current total length as
the sum, over the operations, of the character length of textual insert
payloads and exactly `1` per non-text operation; when that length is `0`
the produced edit is the bare insertion (no deletion operation), and when
it is positive the edit is exactly one deletion of that length followed by
the insertion. -/
theorem createReplacementDelta_delete_structure
    (delta : DeltaJson) (text : String) :
    (∀ ops, delta = DeltaJson.arr ops →
      currentLengthOf delta =
        (ops.map (fun op =>
          match op with
          | QuillOp.insert s => s.length
          | _ => 1)).sum) ∧
    (currentLengthOf delta = 0 →
      (createReplacementDelta delta text).ops =
        [QuillOp.insert (normalizeText text)]) ∧
    (0 < currentLengthOf delta →
      (createReplacementDelta delta text).ops =
        [QuillOp.delete (currentLengthOf delta),
         QuillOp.insert (normalizeText text)]) := by
  refine ⟨?_, ?_, ?_⟩
  · rintro ops rfl
    have hfun : (fun op : QuillOp =>
        match op with
        | QuillOp.insert s => s.length
        | _ => 1) = opLength := by
      funext op
      cases op <;> rfl
    rw [currentLengthOf_arr, hfun]
  · intro h
    rw [createReplacementDelta]
    simp [h]
  · intro h
    rw [createReplacementDelta]
    simp [h]

/-- Witness for C2, matching the spec's worked example: current content
`[{insert:"old"}]` (length `3`), new text `"new"`, produced edit
`{ops:[{delete:3},{insert:"new\n\n"}]}`. -/
theorem createReplacementDelta_delete_structure_witness :
    (createReplacementDelta (DeltaJson.arr [QuillOp.insert "old"]) "new").ops =
      [QuillOp.delete 3, QuillOp.insert "new\n\n"] := by
  have h :=
    (createReplacementDelta_delete_structure
      (DeltaJson.arr [QuillOp.insert "old"]) "new").2.2 (by decide)
  have h3 : currentLengthOf (DeltaJson.arr [QuillOp.insert "old"]) = 3 := by
    decide
  have hn : normalizeText "new" = "new\n\n" := by decide
  rw [h3, hn] at h
  exact h

/-! ## Claim C3 -/

/-- **C3.**  Round-trip: for every old delta, flattening the operation
list produced by `createReplacementDelta(oldDelta, "X")` through
`deltaToPlainText` yields exactly `"X\n\n"`. -/
theorem roundTrip_replacement (oldDelta : DeltaJson) :
    deltaToPlainText
        (DeltaJson.arr (createReplacementDelta oldDelta "X").ops) = "X\n\n" := by
  rw [createReplacementDelta]
  have hn : normalizeText "X" = "X\n\n" := by decide
  by_cases h : currentLengthOf oldDelta > 0 <;>
    simp [h, hn, deltaToPlainText, opText, String.join]

/-! ## Claim C9 -/

/-- A left fold of string concatenation pulls its initial value out front. -/
theorem foldl_append_init (l : List String) :
    ∀ a : String,
      l.foldl (fun r s => r ++ s) a = a ++ l.foldl (fun r s => r ++ s) "" := by
  induction l with
  | nil =>
    intro a
    simp
  | cons t rest ih =>
    intro a
    rw [List.foldl_cons, List.foldl_cons, ih ("" ++ t), ih (a ++ t),
      String.empty_append, String.append_assoc]

/-- `String.join` distributes over `cons`. -/
theorem join_cons (s : String) (l : List String) :
    String.join (s :: l) = s ++ String.join l := by
  rw [String.join, String.join, List.foldl_cons, String.empty_append]
  exact foldl_append_init l s

/-- **C9.**  `deltaToPlainText` returns the empty string for absent input
and for every non-array input (defensive default, not an error); for an
operation sequence it returns the concatenation, in order, of the string
payloads of its insertion operations, non-text operations contributing
nothing; in particular on a sequence consisting solely of textual
insertions it returns the concatenation of the payloads in order. -/
theorem deltaToPlainText_spec (s : String) (ops : List QuillOp)
    (texts : List String) :
    deltaToPlainText DeltaJson.absent = "" ∧
    deltaToPlainText DeltaJson.nonArray = "" ∧
    deltaToPlainText (DeltaJson.str s) = "" ∧
    deltaToPlainText (DeltaJson.arr ops) =
      String.join (ops.filterMap
        (fun op => match op with
          | QuillOp.insert t => some t
          | _ => none)) ∧
    deltaToPlainText (DeltaJson.arr (texts.map QuillOp.insert)) =
      String.join texts := by
  have key : ∀ l : List QuillOp,
      deltaToPlainText (DeltaJson.arr l) =
        String.join (l.filterMap
          (fun op => match op with
            | QuillOp.insert t => some t
            | _ => none)) := by
    intro l
    rw [deltaToPlainText]
    induction l with
    | nil => rfl
    | cons op rest ih =>
      have h1 : String.join ((op :: rest).map opText) =
          opText op ++ String.join (rest.map opText) := by
        rw [List.map_cons, join_cons]
      cases op with
      | insert t =>
        have h2 : List.filterMap
            (fun op => match op with
              | QuillOp.insert t => some t
              | _ => none) (QuillOp.insert t :: rest) =
            t :: List.filterMap
              (fun op => match op with
                | QuillOp.insert t => some t
                | _ => none) rest := rfl
        rw [h1, ih, h2, join_cons]
        rfl
      | delete n =>
        have h2 : List.filterMap
            (fun op => match op with
              | QuillOp.insert t => some t
              | _ => none) (QuillOp.delete n :: rest) =
            List.filterMap
              (fun op => match op with
                | QuillOp.insert t => some t
                | _ => none) rest := rfl
        rw [h1, ih, h2]
        simp [opText]
      | embed =>
        have h2 : List.filterMap
            (fun op => match op with
              | QuillOp.insert t => some t
              | _ => none) (QuillOp.embed :: rest) =
            List.filterMap
              (fun op => match op with
                | QuillOp.insert t => some t
                | _ => none) rest := rfl
        rw [h1, ih, h2]
        simp [opText]
  have h5 : ∀ l : List String,
      deltaToPlainText (DeltaJson.arr (l.map QuillOp.insert)) =
        String.join l := by
    intro l
    induction l with
    | nil => rfl
    | cons t rest ih =>
      have h1 : deltaToPlainText
          (DeltaJson.arr ((t :: rest).map QuillOp.insert)) =
          opText (QuillOp.insert t) ++
            deltaToPlainText (DeltaJson.arr (rest.map QuillOp.insert)) := by
        rw [List.map_cons, deltaToPlainText, deltaToPlainText, List.map_cons,
          join_cons]
      rw [h1, ih, join_cons]
      rfl
  exact ⟨rfl, rfl, rfl, key ops, h5 texts⟩

/-! ## The post transform

Two `transformPost` variants exist in the repository: the verified-schema
one in `src/client.ts:191-210` (author from `owner`, display name from the
owner's `name`, timestamps from `insertedAt`/`updatedAt`) and the legacy
GraphQL-client one among the unnamed sources (author from
`createdBy`/`created_by`, display name from `displayName`/`display_name`).
Both are embedded over one raw-record type carrying the union of the
fields either variant reads; fields a variant does not read are simply
ignored by it, as in the JavaScript. -/

/-- JavaScript `a || b` on two possibly-absent strings: the empty string is
falsy, so it also falls through to `b`. -/
def jsOrString : Option String → Option String → Option String
  | some s, b => if s = "" then b else some s
  | none, b => b

/-- A raw author/owner object as delivered by the backing service; every
field may be missing. -/
structure RawUser where
  id : Option String
  name : Option String
  displayName : Option String
  display_name : Option String
  email : Option String
deriving DecidableEq, Repr

/-- A raw post record as delivered by the backing service: the union of
the fields read by the two `transformPost` variants.  `id` is modelled as
always present, as both variants pass it through unconditionally. -/
structure RawPost where
  id : String
  title : Option String
  content : DeltaJson
  body : Option String
  url : Option String
  insertedAt : Option String
  createdAt : Option String
  created_at : Option String
  updatedAt : Option String
  updated_at : Option String
  owner : Option RawUser
  createdBy : Option RawUser
  created_by : Option RawUser
  updatedBy : Option RawUser
  updated_by : Option RawUser
deriving DecidableEq, Repr

/-- The canonical author shape `{id, display_name, email}`. -/
structure SlabUser where
  id : Option String
  display_name : Option String
  email : Option String
deriving DecidableEq, Repr

/-- The canonical post shape produced by the verified-schema transform. -/
structure SlabPost where
  id : String
  title : Option String
  content : String
  url : String
  created_at : Option String
  updated_at : Option String
  created_by : Option SlabUser
deriving DecidableEq, Repr

/-- `transformPost` (`src/client.ts:191-210`), the verified-schema
variant. -/
def transformPost (post : RawPost) : SlabPost :=
  let contentText :=
    match post.content with
    | .str s => s
    | c => deltaToPlainText c
  { id := post.id
    title := post.title
    content := contentText
    url :=
      match post.url with
      | some u => if u = "" then "https://slab.com/posts/" ++ post.id else u
      | none => "https://slab.com/posts/" ++ post.id
    created_at := post.insertedAt
    updated_at := post.updatedAt
    created_by :=
      match post.owner with
      | some o => some { id := o.id, display_name := o.name, email := o.email }
      | none => none }

/-- JavaScript truthiness of a content JSON value (`null`/`undefined` and
`""` are falsy; arrays and other objects are truthy). -/
def jsTruthyContent : DeltaJson → Bool
  | .absent => false
  | .str s => if s = "" then false else true
  | .nonArray => true
  | .arr _ => true

/-- JavaScript `a || b` on possibly-absent objects (present objects are
always truthy). -/
def jsOrUser : Option RawUser → Option RawUser → Option RawUser
  | some u, _ => some u
  | none, b => b

/-- Canonical post shape of the legacy GraphQL client variant; its
`content` is the raw `content || body || ""` value, which that variant
does not flatten. -/
structure SlabPostLegacy where
  id : String
  title : Option String
  content : DeltaJson
  url : Option String
  created_at : Option String
  updated_at : Option String
  created_by : Option SlabUser
  updated_by : Option SlabUser
deriving DecidableEq, Repr

/-- The legacy `transformPost` (GraphQL-client variant among the unnamed
sources). -/
def transformPostLegacy (post : RawPost) : SlabPostLegacy :=
  { id := post.id
    title := post.title
    content :=
      if jsTruthyContent post.content then post.content
      else
        match post.body with
        | some b => if b = "" then DeltaJson.str "" else DeltaJson.str b
        | none => DeltaJson.str ""
    url := post.url
    created_at := jsOrString post.createdAt post.created_at
    updated_at := jsOrString post.updatedAt post.updated_at
    created_by :=
      match jsOrUser post.createdBy post.created_by with
      | some u =>
        some { id := u.id
               display_name := jsOrString u.displayName u.display_name
               email := u.email }
      | none => none
    updated_by :=
      match jsOrUser post.updatedBy post.updated_by with
      | some u =>
        some { id := u.id
               display_name := jsOrString u.displayName u.display_name
               email := u.email }
      | none => none }

/-! ## Claim C4 -/

/-- **C4, counterexample.**  No single post transform populates
`created_by` from whichever of `owner`, `createdBy`, or `created_by` is
present: the verified-schema transform ignores a present `created_by`
(and `createdBy`), and the legacy transform ignores a present `owner`. -/
theorem transformPost_alias_counterexample :
    (({ id := "p1", title := none, content := DeltaJson.absent,
        body := none, url := none, insertedAt := none, createdAt := none,
        created_at := none, updatedAt := none, updated_at := none,
        owner := none, createdBy := none,
        created_by := some { id := some "u1", name := none,
                             displayName := some "A", display_name := none,
                             email := none },
        updatedBy := none, updated_by := none } : RawPost)).created_by.isSome
      = true ∧
    (transformPost
      { id := "p1", title := none, content := DeltaJson.absent,
        body := none, url := none, insertedAt := none, createdAt := none,
        created_at := none, updatedAt := none, updated_at := none,
        owner := none, createdBy := none,
        created_by := some { id := some "u1", name := none,
                             displayName := some "A", display_name := none,
                             email := none },
        updatedBy := none, updated_by := none }).created_by = none ∧
    (transformPostLegacy
      { id := "p2", title := none, content := DeltaJson.absent,
        body := none, url := none, insertedAt := none, createdAt := none,
        created_at := none, updatedAt := none, updated_at := none,
        owner := some { id := some "u2", name := some "B",
                        displayName := none, display_name := none,
                        email := none },
        createdBy := none, created_by := none,
        updatedBy := none, updated_by := none }).created_by = none := by
  refine ⟨rfl, rfl, rfl⟩

/-- **C4 (amended).**  The verified-schema transform populates
`created_by` exactly from `owner`, mapping `display_name` from the owner's
`name`; the legacy transform populates it exactly from `createdBy` falling
back to `created_by`, mapping `display_name` from `displayName` falling
back to `display_name`.  Both tolerate a missing author object, leaving
`created_by` absent rather than failing (the transforms are total). -/
theorem transformPost_author_mapping (post : RawPost) :
    ((transformPost post).created_by.isSome = post.owner.isSome) ∧
    (∀ o, post.owner = some o →
      (transformPost post).created_by =
        some { id := o.id, display_name := o.name, email := o.email }) ∧
    (post.owner = none → (transformPost post).created_by = none) ∧
    (∀ u, post.createdBy = some u →
      (transformPostLegacy post).created_by =
        some { id := u.id,
               display_name := jsOrString u.displayName u.display_name,
               email := u.email }) ∧
    (post.createdBy = none → ∀ u, post.created_by = some u →
      (transformPostLegacy post).created_by =
        some { id := u.id,
               display_name := jsOrString u.displayName u.display_name,
               email := u.email }) ∧
    (post.createdBy = none → post.created_by = none →
      (transformPostLegacy post).created_by = none) := by
  refine ⟨?_, ?_, ?_, ?_, ?_, ?_⟩
  · cases h : post.owner <;> simp [transformPost, h]
  · rintro o rfl_h
    simp [transformPost, rfl_h]
  · intro h
    simp [transformPost, h]
  · rintro u hu
    simp [transformPostLegacy, jsOrUser, hu]
  · rintro h u hu
    simp [transformPostLegacy, jsOrUser, h, hu]
  · intro h h2
    simp [transformPostLegacy, jsOrUser, h, h2]

/-- Witness for the amended C4, instantiating both transforms at concrete
records with a present author. -/
theorem transformPost_author_mapping_witness :
    (transformPost
      { id := "w1", title := none, content := DeltaJson.absent,
        body := none, url := none, insertedAt := none, createdAt := none,
        created_at := none, updatedAt := none, updated_at := none,
        owner := some { id := some "u1", name := some "A",
                        displayName := none, display_name := none,
                        email := none },
        createdBy := none, created_by := none,
        updatedBy := none, updated_by := none }).created_by =
      some { id := some "u1", display_name := some "A", email := none } ∧
    (transformPostLegacy
      { id := "w2", title := none, content := DeltaJson.absent,
        body := none, url := none, insertedAt := none, createdAt := none,
        created_at := none, updatedAt := none, updated_at := none,
        owner := none, createdBy := none,
        created_by := some { id := some "u3", name := none,
                             displayName := none, display_name := some "C",
                             email := none },
        updatedBy := none, updated_by := none }).created_by =
      some { id := some "u3", display_name := some "C", email := none } := by
  constructor
  · have h := (transformPost_author_mapping
      { id := "w1", title := none, content := DeltaJson.absent,
        body := none, url := none, insertedAt := none, createdAt := none,
        created_at := none, updatedAt := none, updated_at := none,
        owner := some { id := some "u1", name := some "A",
                        displayName := none, display_name := none,
                        email := none },
        createdBy := none, created_by := none,
        updatedBy := none, updated_by := none }).2.1
      { id := some "u1", name := some "A", displayName := none,
        display_name := none, email := none } rfl
    exact h
  · have h := (transformPost_author_mapping
      { id := "w2", title := none, content := DeltaJson.absent,
        body := none, url := none, insertedAt := none, createdAt := none,
        created_at := none, updatedAt := none, updated_at := none,
        owner := none, createdBy := none,
        created_by := some { id := some "u3", name := none,
                             displayName := none, display_name := some "C",
                             email := none },
        updatedBy := none, updated_by := none }).2.2.2.2.1 rfl
      { id := some "u3", name := none, displayName := none,
        display_name := some "C", email := none } rfl
    simpa [jsOrString] using h

/-! ## The query executor (`src/client.ts:93-145`) -/

/-- One application-level error in a GraphQL response body. -/
structure GraphQLError where
  message : String
deriving DecidableEq, Repr

/-- The parsed JSON body of a GraphQL response: an optional `data` payload
and an optional list of application-level errors. -/
structure GraphQLResponse (T : Type) where
  data : Option T
  errors : Option (List GraphQLError)
deriving DecidableEq, Repr

/-- The client's failure values, `SlabApiError` and `SlabNetworkError`,
with the constructor fields each carries (the network error's untyped
`cause` is dropped). -/
inductive SlabError where
  | api (message : String) (status : Option Nat)
      (graphqlErrors : Option (List GraphQLError))
  | network (message : String)
deriving DecidableEq, Repr

/-- An HTTP response as `makeGraphQLRequest` inspects it: the `ok` flag
and status code, the body text (as read for error reporting), and the body
parsed as a GraphQL response when JSON parsing succeeds (`none` models a
parse failure). -/
structure HttpResponse (T : Type) where
  ok : Bool
  status : Nat
  bodyText : String
  json : Option (GraphQLResponse T)
deriving DecidableEq, Repr

/-- `makeGraphQLRequest` (`src/client.ts:93-145`), modelled from the point
the transport attempt resolves (the fetch itself is the
`Except String (HttpResponse T)` argument: a `.error` is a rejected
fetch).  A rejected fetch yields a network error; a non-ok status yields
an API error carrying the status and the raw body text; an unparseable
body yields a network error; a body with a non-empty error list yields an
API error joining the error messages with `", "`; a body with no data
yields a missing-data API error; otherwise the data payload is
returned. -/
def makeGraphQLRequest {T : Type}
    (fetchResult : Except String (HttpResponse T)) : Except SlabError T :=
  match fetchResult with
  | .error msg => .error (.network ("Network error: " ++ msg))
  | .ok resp =>
    if !resp.ok then
      .error (.api ("Slab GraphQL API error (" ++ toString resp.status ++
        "): " ++ resp.bodyText) (some resp.status) none)
    else
      match resp.json with
      | none => .error (.network "Failed to parse JSON response")
      | some json =>
        let dataResult : Except SlabError T :=
          match json.data with
          | none =>
            .error (.api "GraphQL response missing data field"
              (some resp.status) none)
          | some d => .ok d
        match json.errors with
        | some errs =>
          if 0 < errs.length then
            .error (.api ("GraphQL errors: " ++
              String.intercalate ", " (errs.map (fun e => e.message)))
              (some resp.status) (some errs))
          else dataResult
        | none => dataResult

/-! ## Claim C7 -/

/-- **C7.**  On an ok response with a well-formed payload carrying a
non-empty error list, the executor fails with an API error whose message
joins all reported error messages with `", "` and whose status is the
HTTP status of the enclosing response; on a well-formed payload with no
errors and no data payload it fails with an API error signalling missing
data, again carrying the response status. -/
theorem makeGraphQLRequest_classification {T : Type} (status : Nat)
    (bodyText : String) (json : GraphQLResponse T)
    (errs : List GraphQLError) :
    (json.errors = some errs → errs ≠ [] →
      makeGraphQLRequest (.ok ⟨true, status, bodyText, some json⟩) =
        .error (.api ("GraphQL errors: " ++
          String.intercalate ", " (errs.map (fun e => e.message)))
          (some status) (some errs))) ∧
    ((json.errors = none ∨ json.errors = some []) → json.data = none →
      makeGraphQLRequest (.ok ⟨true, status, bodyText, some json⟩) =
        .error (.api "GraphQL response missing data field"
          (some status) none)) := by
  constructor
  · intro he hne
    have hlen : 0 < errs.length := List.length_pos.mpr hne
    simp [makeGraphQLRequest, he, hlen]
  · rintro (he | he) hd <;> simp [makeGraphQLRequest, he, hd]

/-- Witness for C7 at the spec's worked example: a well-formed body with
`errors:[{message:"Post not found"}]` and no data. -/
theorem makeGraphQLRequest_classification_witness :
    @makeGraphQLRequest String
        (.ok ⟨true, 200, "", some ⟨none, some [⟨"Post not found"⟩]⟩⟩) =
      .error (.api "GraphQL errors: Post not found" (some 200)
        (some [⟨"Post not found"⟩])) ∧
    @makeGraphQLRequest String (.ok ⟨true, 200, "", some ⟨none, none⟩⟩) =
      .error (.api "GraphQL response missing data field" (some 200)
        none) := by
  constructor
  · have h := (makeGraphQLRequest_classification 200 ""
      (⟨none, some [⟨"Post not found"⟩]⟩ : GraphQLResponse String)
      [⟨"Post not found"⟩]).1 rfl (by simp)
    have hmsg : "GraphQL errors: " ++
        String.intercalate ", "
          (([⟨"Post not found"⟩] : List GraphQLError).map
            (fun e => e.message)) =
        "GraphQL errors: Post not found" := by decide
    rw [hmsg] at h
    exact h
  · exact (makeGraphQLRequest_classification 200 ""
      (⟨none, none⟩ : GraphQLResponse String) []).2 (Or.inl rfl) rfl

/-! ## Identifier extraction (`src/utils.ts`) -/

/-- The `InvalidPostIdError` raised by `extractPostId`. -/
structure InvalidPostIdError where
  message : String
deriving DecidableEq, Repr

/-- Consume characters until the first `"://"` and return what follows;
`none` when no scheme separator exists.  Part of the model of the WHATWG
`URL` constructor used by `extractPostId`, restricted to the
`scheme://host/path` URLs the surrounding claims quantify over. -/
def dropScheme : List Char → Option (List Char)
  | [] => none
  | c :: rest =>
    if c = ':' then
      match rest with
      | c2 :: c3 :: r =>
        if c2 = '/' ∧ c3 = '/' then some r else dropScheme rest
      | _ => dropScheme rest
    else dropScheme rest

/-- Model of `new URL(input).pathname` for `scheme://host/path` inputs:
the part from the first `'/'` after the host, truncated at a query or
fragment delimiter, `"/"` when the URL has no path; `none` models a URL
constructor throw (no scheme separator or an empty host). -/
def urlPathname (input : String) : Option String :=
  match dropScheme input.data with
  | none => none
  | some rest =>
    let host := rest.takeWhile (fun c => c != '/')
    let path := (rest.dropWhile (fun c => c != '/')).takeWhile
      (fun c => c != '?' && c != '#')
    if host.isEmpty then none
    else some (String.mk (if path.isEmpty then ['/'] else path))

/-- Model of JavaScript `String.prototype.split` with a single-character
separator; never returns an empty list. -/
def splitChar (sep : Char) : List Char → List (List Char)
  | [] => [[]]
  | c :: rest =>
    if c = sep then [] :: splitChar sep rest
    else
      match splitChar sep rest with
      | [] => [[c]]
      | s :: ss => (c :: s) :: ss

/-- `extractPostId` (`src/utils.ts:36-58`): an input starting with
`"http"` is parsed as a URL and its last path segment returned, failing
when the URL cannot be parsed or when the last segment is empty; any
other input is returned unchanged. -/
def extractPostId (input : String) : Except InvalidPostIdError String :=
  if jsStartsWith input "http" then
    match urlPathname input with
    | none => .error { message := "Invalid URL" }
    | some pathname =>
      let postId := (splitChar '/' pathname.data).getLastD []
      if postId.isEmpty then
        .error { message := "Could not extract post ID from URL" }
      else .ok (String.mk postId)
  else .ok input

/-! ### Helper lemmas for identifier extraction -/

theorem string_data_mk (l : List Char) : (String.mk l).data = l := rfl

theorem string_mk_data (s : String) : String.mk s.data = s := rfl

theorem isEmpty_false_of_ne_nil {l : List Char} (h : l ≠ []) :
    l.isEmpty = false := by
  cases l with
  | nil => exact absurd rfl h
  | cons c rest => rfl

theorem splitChar_ne_nil (sep : Char) (l : List Char) :
    splitChar sep l ≠ [] := by
  cases l with
  | nil => simp [splitChar]
  | cons c rest =>
    rw [splitChar]
    by_cases h : c = sep
    · simp [h]
    · simp only [h, if_false]
      cases hs : splitChar sep rest <;> simp

theorem splitChar_of_not_mem (sep : Char) (l : List Char) (h : sep ∉ l) :
    splitChar sep l = [l] := by
  induction l with
  | nil => rfl
  | cons c rest ih =>
    have hc : ¬ c = sep := by
      rintro rfl
      exact h (List.mem_cons_self c rest)
    have hrest : sep ∉ rest := fun hr => h (List.mem_cons_of_mem c hr)
    rw [splitChar, if_neg hc, ih hrest]

theorem splitChar_append (sep : Char) (l r : List Char) (h : sep ∉ r) :
    splitChar sep (l ++ sep :: r) = splitChar sep l ++ [r] := by
  have hcons : ∀ (c : Char) (t : List Char), splitChar sep (c :: t) =
      if c = sep then [] :: splitChar sep t
      else
        match splitChar sep t with
        | [] => [[c]]
        | s :: ss => (c :: s) :: ss := by
    intro c t
    rw [splitChar]
  induction l with
  | nil =>
    rw [List.nil_append, hcons, if_pos rfl, splitChar_of_not_mem sep r h]
    rfl
  | cons c rest ih =>
    by_cases hc : c = sep
    · rw [List.cons_append, hcons, hcons, if_pos hc, if_pos hc, ih]
      rfl
    · obtain ⟨s, ss, hss⟩ : ∃ s ss, splitChar sep rest = s :: ss := by
        cases hs : splitChar sep rest with
        | nil => exact absurd hs (splitChar_ne_nil sep rest)
        | cons s ss => exact ⟨s, ss, rfl⟩
      rw [List.cons_append, hcons, hcons, if_neg hc, if_neg hc, ih, hss]
      rfl

theorem dropScheme_https (rest : List Char) :
    dropScheme
        ('h' :: 't' :: 't' :: 'p' :: 's' :: ':' :: '/' :: '/' :: rest) =
      some rest := by
  simp [dropScheme]

theorem takeWhile_all (p : Char → Bool) (l : List Char)
    (h : ∀ a ∈ l, p a = true) : l.takeWhile p = l := by
  induction l with
  | nil => rfl
  | cons c rest ih =>
    rw [List.takeWhile_cons, h c (List.mem_cons_self c rest),
      ih fun a ha => h a (List.mem_cons_of_mem c ha)]
    simp

theorem span_at_slash (host tail : List Char) (h : '/' ∉ host) :
    ((host ++ '/' :: tail).takeWhile (fun c => c != '/') = host) ∧
    ((host ++ '/' :: tail).dropWhile (fun c => c != '/') = '/' :: tail) := by
  have hp : ∀ a ∈ host, (a != '/') = true := by
    intro a ha
    simp only [bne_iff_ne, ne_eq]
    rintro rfl
    exact h ha
  constructor
  · rw [List.takeWhile_append_of_pos hp, List.takeWhile_cons]
    simp
  · rw [List.dropWhile_append_of_pos hp, List.dropWhile_cons]
    simp

theorem no_query_chars_ok (l : List Char) (h1 : '?' ∉ l) (h2 : '#' ∉ l) :
    ∀ c ∈ l, (c != '?' && c != '#') = true := by
  intro c hc
  simp only [Bool.and_eq_true, bne_iff_ne, ne_eq]
  constructor
  · rintro rfl
    exact h1 hc
  · rintro rfl
    exact h2 hc

theorem urlPathname_build (host tail : List Char)
    (hne : host ≠ []) (hs : '/' ∉ host)
    (hq : ∀ c ∈ tail, (c != '?' && c != '#') = true) :
    urlPathname (String.mk
        ('h' :: 't' :: 't' :: 'p' :: 's' :: ':' :: '/' :: '/' ::
          (host ++ '/' :: tail))) =
      some (String.mk ('/' :: tail)) := by
  rw [urlPathname, string_data_mk, dropScheme_https]
  have htw := (span_at_slash host tail hs).1
  have hdw := (span_at_slash host tail hs).2
  have hpathAll : ∀ c ∈ '/' :: tail, (c != '?' && c != '#') = true := by
    intro c hc
    rcases List.mem_cons.mp hc with hc | hc
    · subst hc
      decide
    · exact hq c hc
  have hpath := takeWhile_all _ _ hpathAll
  simp only [htw, hdw, hpath, isEmpty_false_of_ne_nil hne, Bool.false_eq_true,
    if_false, List.isEmpty_cons]

theorem jsStartsWith_http (rest : List Char) :
    jsStartsWith (String.mk ('h' :: 't' :: 't' :: 'p' :: rest)) "http"
      = true := by
  have hh : ("http" : String).data = ['h', 't', 't', 'p'] := rfl
  rw [jsStartsWith, hh, string_data_mk]
  simp [isPrefixChars]

/-! ## Claim C6 -/

/-- **C6.**  Identifier extraction: for a full URL input the last path
segment is returned as the post ID (`"https://x.slab.com/posts/abc123"`
yields `"abc123"`); for a URL whose final path segment is empty (a
trailing slash, or a bare `/posts/`) it fails with the Invalid-Input
error; a bare identifier input (one not starting with `"http"`, the
code's URL test) is returned unchanged. -/
theorem extractPostId_spec (host mid id input : String)
    (hne : host.data ≠ []) (hhs : '/' ∉ host.data)
    (hmq : '?' ∉ mid.data) (hmh : '#' ∉ mid.data)
    (hidne : id.data ≠ []) (hids : '/' ∉ id.data)
    (hidq : '?' ∉ id.data) (hidh : '#' ∉ id.data) :
    extractPostId ("https://" ++ host ++ "/" ++ mid ++ "/" ++ id) =
      .ok id ∧
    extractPostId ("https://" ++ host ++ "/" ++ mid ++ "/") =
      .error { message := "Could not extract post ID from URL" } ∧
    (jsStartsWith input "http" = false → extractPostId input = .ok input) := by
  have h8 : ("https://" : String).data =
      ['h', 't', 't', 'p', 's', ':', '/', '/'] := rfl
  have h1 : ("/" : String).data = ['/'] := rfl
  refine ⟨?_, ?_, ?_⟩
  · have hdata : ("https://" ++ host ++ "/" ++ mid ++ "/" ++ id).data =
        'h' :: 't' :: 't' :: 'p' :: 's' :: ':' :: '/' :: '/' ::
          (host.data ++ '/' :: (mid.data ++ '/' :: id.data)) := by
      simp [h8, h1]
    have hinput : String.mk
        ('h' :: 't' :: 't' :: 'p' :: 's' :: ':' :: '/' :: '/' ::
          (host.data ++ '/' :: (mid.data ++ '/' :: id.data))) =
        "https://" ++ host ++ "/" ++ mid ++ "/" ++ id := by
      rw [← hdata]
    rw [← hinput, extractPostId]
    have hq : ∀ c ∈ (mid.data ++ '/' :: id.data),
        (c != '?' && c != '#') = true := by
      intro c hc
      rcases List.mem_append.mp hc with hc | hc
      · exact no_query_chars_ok _ hmq hmh c hc
      · rcases List.mem_cons.mp hc with rfl | hc
        · decide
        · exact no_query_chars_ok _ hidq hidh c hc
    have hpath := urlPathname_build host.data (mid.data ++ '/' :: id.data)
      hne hhs hq
    have hsplit : splitChar '/' ('/' :: (mid.data ++ '/' :: id.data)) =
        splitChar '/' ('/' :: mid.data) ++ [id.data] := by
      have hform : '/' :: (mid.data ++ '/' :: id.data) =
          ('/' :: mid.data) ++ '/' :: id.data := by
        simp
      rw [hform]
      exact splitChar_append '/' _ _ hids
    simp only [jsStartsWith_http, if_true, hpath, string_data_mk, hsplit,
      List.getLastD_concat, isEmpty_false_of_ne_nil hidne,
      Bool.false_eq_true, if_false, string_mk_data]
  · have hdata : ("https://" ++ host ++ "/" ++ mid ++ "/").data =
        'h' :: 't' :: 't' :: 'p' :: 's' :: ':' :: '/' :: '/' ::
          (host.data ++ '/' :: (mid.data ++ ['/'])) := by
      simp [h8, h1]
    have hinput : String.mk
        ('h' :: 't' :: 't' :: 'p' :: 's' :: ':' :: '/' :: '/' ::
          (host.data ++ '/' :: (mid.data ++ ['/']))) =
        "https://" ++ host ++ "/" ++ mid ++ "/" := by
      rw [← hdata]
    rw [← hinput, extractPostId]
    have hq : ∀ c ∈ (mid.data ++ ['/']), (c != '?' && c != '#') = true := by
      intro c hc
      rcases List.mem_append.mp hc with hc | hc
      · exact no_query_chars_ok _ hmq hmh c hc
      · rcases List.mem_cons.mp hc with rfl | hc
        · decide
        · exact absurd hc (List.not_mem_nil c)
    have hpath := urlPathname_build host.data (mid.data ++ ['/'])
      hne hhs hq
    have hsplit : splitChar '/' ('/' :: (mid.data ++ ['/'])) =
        splitChar '/' ('/' :: mid.data) ++ [[]] := by
      have hform : '/' :: (mid.data ++ ['/']) =
          ('/' :: mid.data) ++ '/' :: [] := by
        simp
      rw [hform]
      exact splitChar_append '/' _ _ (List.not_mem_nil '/')
    simp only [jsStartsWith_http, if_true, hpath, string_data_mk, hsplit,
      List.getLastD_concat, List.isEmpty_nil, if_true]
  · intro h
    rw [extractPostId]
    simp [h]

/-- Witness for C6 at the spec's worked examples:
`"https://x.slab.com/posts/abc123"` yields `"abc123"`,
`"https://x.slab.com/posts/"` yields the Invalid-Input error, and the
bare identifier `"abc123"` is returned unchanged. -/
theorem extractPostId_spec_witness :
    ("https://" ++ "x.slab.com" ++ "/" ++ "posts" ++ "/" ++ "abc123" :
        String) = "https://x.slab.com/posts/abc123" ∧
    extractPostId "https://x.slab.com/posts/abc123" = .ok "abc123" ∧
    ("https://" ++ "x.slab.com" ++ "/" ++ "posts" ++ "/" : String) =
      "https://x.slab.com/posts/" ∧
    extractPostId "https://x.slab.com/posts/" =
      .error { message := "Could not extract post ID from URL" } ∧
    extractPostId "abc123" = .ok "abc123" := by
  have h := extractPostId_spec "x.slab.com" "posts" "abc123" "abc123"
    (by decide) (by decide) (by decide) (by decide)
    (by decide) (by decide) (by decide) (by decide)
  have e1 : ("https://" ++ "x.slab.com" ++ "/" ++ "posts" ++ "/" ++
      "abc123" : String) = "https://x.slab.com/posts/abc123" := by decide
  have e2 : ("https://" ++ "x.slab.com" ++ "/" ++ "posts" ++ "/" :
      String) = "https://x.slab.com/posts/" := by decide
  refine ⟨e1, ?_, e2, ?_, ?_⟩
  · rw [← e1]
    exact h.1
  · rw [← e2]
    exact h.2.1
  · exact h.2.2 (by decide)

/-! ## Configuration (`src/config.ts`) -/

/-- The `ConfigError` raised when a required setting is missing. -/
structure ConfigError where
  message : String
deriving DecidableEq, Repr

/-- The process environment as `loadConfig` reads it. -/
structure Env where
  SLAB_API_TOKEN : Option String
  SLAB_TEAM : Option String
deriving DecidableEq, Repr

/-- JavaScript truthiness of a possibly-absent string (`undefined` and
`""` are falsy). -/
def optTruthy : Option String → Bool
  | some s => if s = "" then false else true
  | none => false

/-- The REST-era configuration shape (`src/config.ts:34-38`). -/
structure SlabConfig where
  apiToken : String
  team : String
  baseUrl : String
deriving DecidableEq, Repr

/-- `loadConfig` (`src/config.ts:55-73`): fail fast with a descriptive
message when the token or the team is missing, otherwise derive the base
URL from the team identifier by template. -/
def loadConfig (env : Env) : Except ConfigError SlabConfig :=
  if !optTruthy env.SLAB_API_TOKEN then
    .error { message := "SLAB_API_TOKEN environment variable is required" }
  else if !optTruthy env.SLAB_TEAM then
    .error { message := "SLAB_TEAM environment variable is required" }
  else
    .ok { apiToken := env.SLAB_API_TOKEN.getD ""
          team := env.SLAB_TEAM.getD ""
          baseUrl := "https://" ++ env.SLAB_TEAM.getD "" ++ ".slab.com/api/v1" }

/-- The GraphQL-era configuration shape, as destructured by the client
(`const { graphqlUrl, apiToken } = config`, `src/client.ts:219`). -/
structure SlabGraphqlConfig where
  apiToken : String
  team : String
  graphqlUrl : String
deriving DecidableEq, Repr

/-- Modelled from the spec: the configuration module that defines
`graphqlUrl` is missing from the sources — the GraphQL client
destructures `graphqlUrl` from the loaded configuration and the test
layer injects one, but the `config.ts` present is the REST-era variant
defining only `baseUrl`.  Following the spec ("an API token and a
team/workspace identifier, from which the service base/GraphQL endpoint
is derived by template", environment-sourced and validated at startup
with a descriptive failure when absent), this loader validates the same
two environment variables as the REST-era `loadConfig` and derives the
GraphQL endpoint from the team identifier by a fixed URL template. -/
def loadGraphqlConfig (env : Env) : Except ConfigError SlabGraphqlConfig :=
  if !optTruthy env.SLAB_API_TOKEN then
    .error { message := "SLAB_API_TOKEN environment variable is required" }
  else if !optTruthy env.SLAB_TEAM then
    .error { message := "SLAB_TEAM environment variable is required" }
  else
    .ok { apiToken := env.SLAB_API_TOKEN.getD ""
          team := env.SLAB_TEAM.getD ""
          graphqlUrl := "https://" ++ env.SLAB_TEAM.getD "" ++
            ".slab.com/api/v1/graphql" }

/-! ## The knowledge-base client (`src/client.ts:215-303`)

Each operation is embedded over an abstract responder standing for the
transport + `makeGraphQLRequest` round trip, and returns both its result
and the ordered list of requests it issued, so that sequencing claims can
be stated. -/

/-- The GraphQL documents of `src/graphql.ts`, by constant name (the query
text itself plays no role in the claims). -/
inductive QueryDoc where
  | getPostQuery
  | updatePostContentMutation
  | searchPostsQuery
  | getTopicPostsQuery
  | getOrganizationPostsQuery
deriving DecidableEq, Repr

/-- The variables each call site passes. -/
inductive GqlVariables where
  | getPost (id : String)
  | updatePostContent (id : String) (delta : ReplacementDelta)
  | search (query : String) (first : Nat)
  | topicPosts (topicId : String)
  | orgPosts
deriving DecidableEq, Repr

/-- One request issued through `makeGraphQLRequest`: its endpoint and
token arguments plus the GraphQL document and variables. -/
structure GqlRequest where
  url : String
  token : String
  query : QueryDoc
  vars : GqlVariables
deriving DecidableEq, Repr

/-- A node of a search edge; the client reads only its `post` field. -/
structure SearchNode where
  post : Option RawPost
deriving DecidableEq, Repr

/-- One edge of the cursor-paginated search connection. -/
structure SearchEdge where
  node : Option SearchNode
deriving DecidableEq, Repr

/-- The `search` payload; `edges` may be absent
(`data.search.edges?.…`). -/
structure SearchPayload where
  edges : Option (List SearchEdge)
deriving DecidableEq, Repr

/-- The typed `data` payloads the operations expect from the executor. -/
inductive GqlData where
  | post (p : RawPost)
  | updatePostContent (p : RawPost)
  | search (s : SearchPayload)
  | topic (posts : Option (List RawPost))
  | organization (posts : Option (List RawPost))
deriving DecidableEq, Repr

/-- The result shape of the search and list operations
(`SlabSearchResult` / `SlabListResult`, identical fields). -/
structure SlabSearchResult where
  posts : List SlabPost
  total_count : Nat
deriving DecidableEq, Repr

/-- A mismatch between an operation's expected payload shape and the
responder's payload; in the JavaScript the field projection on the wrong
shape would throw inside the effect.  The well-shapedness hypotheses of
the theorems below keep every proof away from this branch. -/
def shapeMismatch : SlabError := .network "TypeError: unexpected response shape"

/-- `getPost` (`src/client.ts:222-229`). -/
def getPost (url token : String)
    (respond : GqlRequest → Except SlabError GqlData) (postId : String) :
    Except SlabError SlabPost × List GqlRequest :=
  let req : GqlRequest := ⟨url, token, .getPostQuery, .getPost postId⟩
  match respond req with
  | .error e => (.error e, [req])
  | .ok (.post p) => (.ok (transformPost p), [req])
  | .ok _ => (.error shapeMismatch, [req])

/-- `updatePost` (`src/client.ts:231-249`): read the current post, build
the replacement delta from its content and the new text, then write it
with the `updatePostContent` mutation. -/
def updatePost (url token : String)
    (respond : GqlRequest → Except SlabError GqlData)
    (postId content : String) :
    Except SlabError SlabPost × List GqlRequest :=
  let req1 : GqlRequest := ⟨url, token, .getPostQuery, .getPost postId⟩
  match respond req1 with
  | .error e => (.error e, [req1])
  | .ok (.post p) =>
    let delta := createReplacementDelta p.content content
    let req2 : GqlRequest :=
      ⟨url, token, .updatePostContentMutation,
       .updatePostContent postId delta⟩
    match respond req2 with
    | .error e => (.error e, [req1, req2])
    | .ok (.updatePostContent p2) => (.ok (transformPost p2), [req1, req2])
    | .ok _ => (.error shapeMismatch, [req1, req2])
  | .ok _ => (.error shapeMismatch, [req1])

/-- `searchPosts` (`src/client.ts:251-271`): map each edge to its
transformed post when the edge's node carries one and to `null`
otherwise, drop the `null`s (`filter(Boolean)`), and report the length of
the kept list as `total_count`. -/
def searchPosts (url token : String)
    (respond : GqlRequest → Except SlabError GqlData) (query : String) :
    Except SlabError SlabSearchResult × List GqlRequest :=
  let req : GqlRequest := ⟨url, token, .searchPostsQuery, .search query 20⟩
  match respond req with
  | .error e => (.error e, [req])
  | .ok (.search s) =>
    let posts :=
      match s.edges with
      | some edges =>
        (edges.map (fun edge =>
          match edge.node with
          | some n =>
            match n.post with
            | some p => some (transformPost p)
            | none => none
          | none => none)).filterMap id
      | none => []
    (.ok { posts := posts, total_count := posts.length }, [req])
  | .ok _ => (.error shapeMismatch, [req])

/-- `listPosts` (`src/client.ts:273-300`): a truthy topic id selects the
topic query, otherwise the organization query is issued. -/
def listPosts (url token : String)
    (respond : GqlRequest → Except SlabError GqlData)
    (topicId : Option String) :
    Except SlabError SlabSearchResult × List GqlRequest :=
  if optTruthy topicId then
    let req : GqlRequest :=
      ⟨url, token, .getTopicPostsQuery, .topicPosts (topicId.getD "")⟩
    match respond req with
    | .error e => (.error e, [req])
    | .ok (.topic postsOpt) =>
      let posts := (postsOpt.getD []).map transformPost
      (.ok { posts := posts, total_count := posts.length }, [req])
    | .ok _ => (.error shapeMismatch, [req])
  else
    let req : GqlRequest :=
      ⟨url, token, .getOrganizationPostsQuery, .orgPosts⟩
    match respond req with
    | .error e => (.error e, [req])
    | .ok (.organization postsOpt) =>
      let posts := (postsOpt.getD []).map transformPost
      (.ok { posts := posts, total_count := posts.length }, [req])
    | .ok _ => (.error shapeMismatch, [req])

/-! ## Concrete fixtures used by the operation witnesses -/

/-- A concrete raw post whose content is `[{insert:"old"}]`. -/
def examplePost : RawPost :=
  { id := "p1", title := some "T",
    content := DeltaJson.arr [QuillOp.insert "old"],
    body := none, url := none, insertedAt := some "t1", createdAt := none,
    created_at := none, updatedAt := none, updated_at := none,
    owner := none, createdBy := none, created_by := none,
    updatedBy := none, updated_by := none }

/-- The raw post the witness write call returns. -/
def exampleUpdatedPost : RawPost :=
  { examplePost with content := DeltaJson.arr [QuillOp.insert "new\n\n"] }

/-- A responder answering the read with `examplePost` and the write with
`exampleUpdatedPost`. -/
def exampleResponder : GqlRequest → Except SlabError GqlData := fun r =>
  match r.vars with
  | .getPost _ => .ok (.post examplePost)
  | .updatePostContent _ _ => .ok (.updatePostContent exampleUpdatedPost)
  | _ => .error (.network "unhandled")

/-- A search payload with two edges, the second lacking a post. -/
def exampleSearchPayload : SearchPayload :=
  { edges := some [{ node := some { post := some examplePost } },
                   { node := none }] }

/-- A responder answering every request with `exampleSearchPayload`. -/
def exampleSearchResponder : GqlRequest → Except SlabError GqlData :=
  fun _ => .ok (.search exampleSearchPayload)

/-! ## Claim C8 -/

/-- **C8.**  `updatePost` performs exactly two sequential calls: first a
read of the current record, then a write whose delta variable equals the
replacement edit computed by `createReplacementDelta` from the content
returned by that read and the new text.  If the read fails, no write
request is issued and the caller observes that single failure; if the
read succeeds the two requests are issued in order, and the final result
follows the write's outcome. -/
theorem updatePost_two_sequential_calls (url token : String)
    (respond : GqlRequest → Except SlabError GqlData)
    (postId content : String) :
    (∀ e, respond ⟨url, token, .getPostQuery, .getPost postId⟩ = .error e →
      updatePost url token respond postId content =
        (.error e, [⟨url, token, .getPostQuery, .getPost postId⟩])) ∧
    (∀ p, respond ⟨url, token, .getPostQuery, .getPost postId⟩ =
        .ok (.post p) →
      (updatePost url token respond postId content).2 =
        [⟨url, token, .getPostQuery, .getPost postId⟩,
         ⟨url, token, .updatePostContentMutation,
          .updatePostContent postId
            (createReplacementDelta p.content content)⟩] ∧
      (∀ e, respond ⟨url, token, .updatePostContentMutation,
            .updatePostContent postId
              (createReplacementDelta p.content content)⟩ = .error e →
        (updatePost url token respond postId content).1 = .error e) ∧
      (∀ p2, respond ⟨url, token, .updatePostContentMutation,
            .updatePostContent postId
              (createReplacementDelta p.content content)⟩ =
          .ok (.updatePostContent p2) →
        (updatePost url token respond postId content).1 =
          .ok (transformPost p2))) := by
  constructor
  · intro e he
    simp [updatePost, he]
  · intro p hp
    refine ⟨?_, ?_, ?_⟩
    · cases hr2 : respond ⟨url, token, .updatePostContentMutation,
          .updatePostContent postId
            (createReplacementDelta p.content content)⟩ with
      | error e => simp [updatePost, hp, hr2]
      | ok d => cases d <;> simp [updatePost, hp, hr2]
    · intro e he
      simp [updatePost, hp, he]
    · intro p2 hp2
      simp [updatePost, hp, hp2]

/-- Witness for C8: with `exampleResponder`, the update issues the read
followed by the write carrying the replacement delta of the read
content, and returns the transformed written post. -/
theorem updatePost_two_sequential_calls_witness :
    (updatePost "https://acme.slab.com/api/v1/graphql" "tok"
        exampleResponder "p1" "new").2 =
      [⟨"https://acme.slab.com/api/v1/graphql", "tok",
        QueryDoc.getPostQuery, GqlVariables.getPost "p1"⟩,
       ⟨"https://acme.slab.com/api/v1/graphql", "tok",
        QueryDoc.updatePostContentMutation,
        GqlVariables.updatePostContent "p1"
          (createReplacementDelta examplePost.content "new")⟩] ∧
    (updatePost "https://acme.slab.com/api/v1/graphql" "tok"
        exampleResponder "p1" "new").1 =
      .ok (transformPost exampleUpdatedPost) := by
  have h := (updatePost_two_sequential_calls
    "https://acme.slab.com/api/v1/graphql" "tok" exampleResponder
    "p1" "new").2 examplePost rfl
  exact ⟨h.1, h.2.2 exampleUpdatedPost rfl⟩

/-! ## Claim C10 -/

/-- The per-edge mapping of `searchPosts` (transformed post or `null`)
keeps exactly the edges whose node carries a post. -/
theorem search_edge_map_eq (edge : SearchEdge) :
    (match edge.node with
     | some n =>
       match n.post with
       | some p => some (transformPost p)
       | none => none
     | none => none) =
    (edge.node.bind (fun n => n.post)).map transformPost := by
  cases edge.node with
  | none => rfl
  | some n =>
    cases n with
    | mk postOpt => cases postOpt <;> rfl

/-- **C10.**  `searchPosts` silently drops every search edge whose node
lacks a nested post object: the returned posts are exactly the
transformed posts of the edges that carry one, in source order, and
`total_count` is the length of that filtered list — hence it never
exceeds (and can be smaller than) the number of edges in the backing
response.  When `edges` is absent the result is empty. -/
theorem searchPosts_drops_postless_edges (url token q : String)
    (respond : GqlRequest → Except SlabError GqlData)
    (s : SearchPayload) :
    (respond ⟨url, token, .searchPostsQuery, .search q 20⟩ =
        .ok (.search s) →
      ∀ edges, s.edges = some edges →
        searchPosts url token respond q =
          (.ok { posts := edges.filterMap (fun e =>
                    (e.node.bind (fun n => n.post)).map transformPost)
                 total_count := (edges.filterMap (fun e =>
                    (e.node.bind (fun n => n.post)).map
                      transformPost)).length },
           [⟨url, token, .searchPostsQuery, .search q 20⟩]) ∧
        (edges.filterMap (fun e =>
            (e.node.bind (fun n => n.post)).map transformPost)).length ≤
          edges.length) ∧
    (respond ⟨url, token, .searchPostsQuery, .search q 20⟩ =
        .ok (.search s) → s.edges = none →
      searchPosts url token respond q =
        (.ok { posts := [], total_count := 0 },
         [⟨url, token, .searchPostsQuery, .search q 20⟩])) := by
  constructor
  · intro h edges hedges
    refine ⟨?_, List.length_filterMap_le _ _⟩
    simp [searchPosts, h, hedges, search_edge_map_eq]
  · intro h hedges
    simp [searchPosts, h, hedges]

/-- Witness for C10: two edges, one without a post, yield one transformed
post and `total_count = 1`. -/
theorem searchPosts_drops_postless_edges_witness :
    searchPosts "u" "tok" exampleSearchResponder "q" =
      (.ok { posts := [transformPost examplePost], total_count := 1 },
       [⟨"u", "tok", QueryDoc.searchPostsQuery,
         GqlVariables.search "q" 20⟩]) := by
  have h := ((searchPosts_drops_postless_edges "u" "tok" "q"
    exampleSearchResponder exampleSearchPayload).1 rfl
    [{ node := some { post := some examplePost } }, { node := none }]
    rfl).1
  have e1 : (([{ node := some { post := some examplePost } },
      { node := none }] : List SearchEdge).filterMap (fun e =>
        (e.node.bind (fun n => n.post)).map transformPost)) =
      [transformPost examplePost] := rfl
  rw [e1] at h
  exact h

/-! ## Claim C5 -/

/-- **C5.**  The endpoints are derived by template from the validated
startup configuration: a successful `loadConfig` yields a base URL
templated on the team identifier, a successful `loadGraphqlConfig`
(spec-modelled, see its definition) yields a GraphQL endpoint templated
on the team identifier, and every request any client operation issues
carries exactly the configured endpoint string as its URL argument. -/
theorem endpoint_from_startup_config (env : Env) (cfg : SlabGraphqlConfig)
    (c : SlabConfig) (respond : GqlRequest → Except SlabError GqlData)
    (postId content q : String) (topicId : Option String) :
    (loadConfig env = .ok c →
      c.baseUrl = "https://" ++ c.team ++ ".slab.com/api/v1") ∧
    (loadGraphqlConfig env = .ok cfg →
      cfg.graphqlUrl = "https://" ++ cfg.team ++ ".slab.com/api/v1/graphql") ∧
    (∀ r ∈ (getPost cfg.graphqlUrl cfg.apiToken respond postId).2,
      r.url = cfg.graphqlUrl) ∧
    (∀ r ∈ (updatePost cfg.graphqlUrl cfg.apiToken respond postId content).2,
      r.url = cfg.graphqlUrl) ∧
    (∀ r ∈ (searchPosts cfg.graphqlUrl cfg.apiToken respond q).2,
      r.url = cfg.graphqlUrl) ∧
    (∀ r ∈ (listPosts cfg.graphqlUrl cfg.apiToken respond topicId).2,
      r.url = cfg.graphqlUrl) := by
  refine ⟨?_, ?_, ?_, ?_, ?_, ?_⟩
  · intro h
    rw [loadConfig] at h
    by_cases h1 : optTruthy env.SLAB_API_TOKEN
    · by_cases h2 : optTruthy env.SLAB_TEAM
      · simp only [h1, h2, Bool.not_true, Bool.false_eq_true, if_false,
          Except.ok.injEq] at h
        rw [← h]
      · simp [h1, h2] at h
    · simp [h1] at h
  · intro h
    rw [loadGraphqlConfig] at h
    by_cases h1 : optTruthy env.SLAB_API_TOKEN
    · by_cases h2 : optTruthy env.SLAB_TEAM
      · simp only [h1, h2, Bool.not_true, Bool.false_eq_true, if_false,
          Except.ok.injEq] at h
        rw [← h]
      · simp [h1, h2] at h
    · simp [h1] at h
  · intro r hr
    cases hresp : respond ⟨cfg.graphqlUrl, cfg.apiToken,
        QueryDoc.getPostQuery, GqlVariables.getPost postId⟩ with
    | error e =>
      simp [getPost, hresp] at hr
      rw [hr]
    | ok d =>
      cases d <;> simp [getPost, hresp] at hr <;> rw [hr]
  · intro r hr
    cases hresp : respond ⟨cfg.graphqlUrl, cfg.apiToken,
        QueryDoc.getPostQuery, GqlVariables.getPost postId⟩ with
    | error e =>
      simp [updatePost, hresp] at hr
      rw [hr]
    | ok d =>
      cases d with
      | post p =>
        cases hresp2 : respond ⟨cfg.graphqlUrl, cfg.apiToken,
            QueryDoc.updatePostContentMutation,
            GqlVariables.updatePostContent postId
              (createReplacementDelta p.content content)⟩ with
        | error e =>
          simp [updatePost, hresp, hresp2] at hr
          rcases hr with rfl | rfl <;> rfl
        | ok d2 =>
          cases d2 <;> simp [updatePost, hresp, hresp2] at hr <;>
            rcases hr with rfl | rfl <;> rfl
      | updatePostContent p =>
        simp [updatePost, hresp] at hr
        rw [hr]
      | search s =>
        simp [updatePost, hresp] at hr
        rw [hr]
      | topic posts =>
        simp [updatePost, hresp] at hr
        rw [hr]
      | organization posts =>
        simp [updatePost, hresp] at hr
        rw [hr]
  · intro r hr
    cases hresp : respond ⟨cfg.graphqlUrl, cfg.apiToken,
        QueryDoc.searchPostsQuery, GqlVariables.search q 20⟩ with
    | error e =>
      simp [searchPosts, hresp] at hr
      rw [hr]
    | ok d =>
      cases d <;> simp [searchPosts, hresp] at hr <;> rw [hr]
  · intro r hr
    by_cases ht : optTruthy topicId
    · cases hresp : respond ⟨cfg.graphqlUrl, cfg.apiToken,
          QueryDoc.getTopicPostsQuery,
          GqlVariables.topicPosts (topicId.getD "")⟩ with
      | error e =>
        simp [listPosts, ht, hresp] at hr
        rw [hr]
      | ok d =>
        cases d <;> simp [listPosts, ht, hresp] at hr <;> rw [hr]
    · cases hresp : respond ⟨cfg.graphqlUrl, cfg.apiToken,
          QueryDoc.getOrganizationPostsQuery, GqlVariables.orgPosts⟩ with
      | error e =>
        simp [listPosts, ht, hresp] at hr
        rw [hr]
      | ok d =>
        cases d <;> simp [listPosts, ht, hresp] at hr <;> rw [hr]

/-- The environment and configurations used by the C5 witness. -/
def exampleEnv : Env := { SLAB_API_TOKEN := some "tok", SLAB_TEAM := some "acme" }

/-- The GraphQL-era configuration `loadGraphqlConfig` produces for
`exampleEnv`. -/
def exampleGraphqlConfig : SlabGraphqlConfig :=
  { apiToken := "tok", team := "acme",
    graphqlUrl := "https://acme.slab.com/api/v1/graphql" }

/-- The REST-era configuration `loadConfig` produces for `exampleEnv`. -/
def exampleConfig : SlabConfig :=
  { apiToken := "tok", team := "acme",
    baseUrl := "https://acme.slab.com/api/v1" }

/-- Witness for C5 at the concrete environment `exampleEnv`. -/
theorem endpoint_from_startup_config_witness :
    exampleConfig.baseUrl = "https://" ++ exampleConfig.team ++
      ".slab.com/api/v1" ∧
    exampleGraphqlConfig.graphqlUrl = "https://" ++
      exampleGraphqlConfig.team ++ ".slab.com/api/v1/graphql" ∧
    (⟨exampleGraphqlConfig.graphqlUrl, exampleGraphqlConfig.apiToken,
      QueryDoc.getPostQuery, GqlVariables.getPost "p1"⟩ : GqlRequest).url =
      exampleGraphqlConfig.graphqlUrl := by
  have h := endpoint_from_startup_config exampleEnv exampleGraphqlConfig
    exampleConfig exampleResponder "p1" "new" "q" none
  refine ⟨h.1 rfl, h.2.1 rfl, ?_⟩
  exact h.2.2.1 _ (by decide)

end Slabby
